import Mathlib

/-!
A verification development for the `rt_components` SSB-spoofer orchestration
core: the system-information (MIB) mutation engine, the configuration
validator, the continuous burst-transmission loop, the windowed acquisition
scan loop, and the burst construction / amplitude-normalization step.

Each definition is a shallow embedding of the corresponding C++ code:
machine integers are modelled as `Nat`/`Int`, `double`/`float` values as `ℚ`
or `ℝ`, complex baseband samples as `ℂ`, and the stateful loops as explicit
fuel-indexed recursion over iteration-indexed observation functions (the
running flag, the transport results and the monotonic-clock readings seen by
each loop iteration).
-/

namespace RtComponents

/-- Embeds the decoded system-information record `srsran_mib_nr_t` as the
ssb-spoofer code reads and writes it (fields used in
`ssb_file_analyzer.cpp`: `sfn`, `ssb_idx`, `hrf`, `scs_common`,
`ssb_offset`, `dmrs_typeA_pos`, `coreset0_idx`, `ss0_idx`, `cell_barred`,
`intra_freq_reselection`, plus the spare bit). Integer and enum fields are
modelled as `Nat`, flags as `Bool`. -/
structure SrsranMibNr where
  sfn : Nat
  ssb_idx : Nat
  hrf : Bool
  scs_common : Nat
  ssb_offset : Nat
  dmrs_typeA_pos : Nat
  coreset0_idx : Nat
  ss0_idx : Nat
  cell_barred : Bool
  intra_freq_reselection : Bool
  spare : Nat
deriving DecidableEq

/-- Embeds `struct AttackConfig` from `config.h` (MIB modification flags and
values plus burst-control parameters). -/
structure AttackConfig where
  target_pci : Nat
  scan_for_target : Bool
  modify_coreset0_idx : Bool
  modify_ss0_idx : Bool
  modify_cell_barred : Bool
  modify_intra_freq_resel : Bool
  coreset0_idx_value : Nat
  ss0_idx_value : Nat
  cell_barred_value : Bool
  intra_freq_resel_value : Bool
  tx_power_db : ℚ
  tx_power_offset_db : ℚ
  continuous_tx : Bool
  max_bursts : Nat
  burst_interval_us : Nat
  burst_length_ms : Nat
deriving DecidableEq

/-- Embeds `SsbProcessor::modify_mib` (ssb_file_analyzer.cpp lines 474-517).
The function applies three modification rules in sequence:
`modify_cell_barred` sets `cell_barred` to the literal `true`,
`modify_coreset0_idx` sets `coreset0_idx` to `coreset0_idx_value`, and
`modify_ss0_idx` sets `ss0_idx` to `ss0_idx_value`. No rule reads or writes
`intra_freq_reselection` or any timing field. The returned flag is the
source's `modified` local, which is set to `true` by whichever rules fire,
hence equals the disjunction of the three rule flags. -/
def modify_mib (mib : SrsranMibNr) (cfg : AttackConfig) : SrsranMibNr × Bool :=
  let mib1 := if cfg.modify_cell_barred then { mib with cell_barred := true } else mib
  let mib2 :=
    if cfg.modify_coreset0_idx then { mib1 with coreset0_idx := cfg.coreset0_idx_value }
    else mib1
  let mib3 := if cfg.modify_ss0_idx then { mib2 with ss0_idx := cfg.ss0_idx_value } else mib2
  (mib3, cfg.modify_cell_barred || cfg.modify_coreset0_idx || cfg.modify_ss0_idx)

/-- Embeds `struct RfConfig` from `config.h`; `double` fields as `ℚ`. -/
structure RfConfig where
  device_name : String
  device_args : String
  tx_freq_hz : ℚ
  rx_freq_hz : ℚ
  srate_hz : ℚ
  tx_gain_db : ℚ
  rx_gain_db : ℚ
deriving DecidableEq

/-- Embeds `struct SsbConfig` from `config.h`. -/
structure SsbConfig where
  pattern : String
  scs_khz : Nat
  periodicity_ms : Nat
  f_offset_hz : ℚ
  ssb_freq_offset_hz : ℚ
  beta_pss : ℚ
  beta_sss : ℚ
  beta_pbch : ℚ
  beta_pbch_dmrs : ℚ
deriving DecidableEq

/-- Embeds `struct OperationalConfig` from `config.h`. -/
structure OperationalConfig where
  scan_duration_sec : ℚ
  log_level : String
  log_file : String
  save_samples : Bool
  samples_file : String
deriving DecidableEq

/-- Embeds `struct Config` from `config.h`. -/
structure Config where
  rf : RfConfig
  ssb : SsbConfig
  attack : AttackConfig
  operation : OperationalConfig
deriving DecidableEq

/-- Embeds `ConfigParser::validate` (rf_handler source, lines 339-380): a
`valid` flag starts `true` and each failed range check forces it to `false`;
the final flag is returned. -/
def validate (c : Config) : Bool :=
  let valid := true
  let valid := if c.rf.srate_hz ≤ 0 then false else valid
  let valid := if c.rf.rx_freq_hz ≤ 0 ∨ c.rf.tx_freq_hz ≤ 0 then false else valid
  let valid :=
    if c.ssb.pattern ≠ "A" ∧ c.ssb.pattern ≠ "B" ∧ c.ssb.pattern ≠ "C" ∧
        c.ssb.pattern ≠ "D" ∧ c.ssb.pattern ≠ "E" then false
    else valid
  let valid := if c.ssb.scs_khz ≠ 15 ∧ c.ssb.scs_khz ≠ 30 then false else valid
  let valid := if c.attack.target_pci > 1007 then false else valid
  let valid := if c.attack.coreset0_idx_value > 15 then false else valid
  let valid := if c.attack.ss0_idx_value > 15 then false else valid
  valid

end RtComponents

namespace RtComponents

/-- C1, as the spec states it, quantified over all inputs: every enabled rule
(including `modify_cell_barred` and `modify_intra_freq_resel`) writes its
configured override value (`cell_barred_value`, `intra_freq_resel_value`,
...) into the output field, and every disabled rule leaves its field
unchanged. Written from the spec's words, to be compared with `modify_mib`. -/
def mutatorSelectivityClaim : Prop :=
  ∀ (m : SrsranMibNr) (c : AttackConfig),
    ((modify_mib m c).1.cell_barred =
      (if c.modify_cell_barred then c.cell_barred_value else m.cell_barred)) ∧
    ((modify_mib m c).1.coreset0_idx =
      (if c.modify_coreset0_idx then c.coreset0_idx_value else m.coreset0_idx)) ∧
    ((modify_mib m c).1.ss0_idx =
      (if c.modify_ss0_idx then c.ss0_idx_value else m.ss0_idx)) ∧
    ((modify_mib m c).1.intra_freq_reselection =
      (if c.modify_intra_freq_resel then c.intra_freq_resel_value
       else m.intra_freq_reselection))

/-- A MIB value used as concrete test input: nothing barred, reselection
not allowed, all indices zero. -/
def mibZero : SrsranMibNr :=
  { sfn := 0, ssb_idx := 0, hrf := false, scs_common := 0, ssb_offset := 0,
    dmrs_typeA_pos := 0, coreset0_idx := 0, ss0_idx := 0, cell_barred := false,
    intra_freq_reselection := false, spare := 0 }

/-- An attack configuration enabling `modify_cell_barred` with
`cell_barred_value = false` and `modify_intra_freq_resel` with
`intra_freq_resel_value = true`. -/
def cfgCounterexample : AttackConfig :=
  { target_pci := 0, scan_for_target := false, modify_coreset0_idx := false,
    modify_ss0_idx := false, modify_cell_barred := true,
    modify_intra_freq_resel := true, coreset0_idx_value := 0, ss0_idx_value := 0,
    cell_barred_value := false, intra_freq_resel_value := true,
    tx_power_db := 0, tx_power_offset_db := 0, continuous_tx := true,
    max_bursts := 0, burst_interval_us := 0, burst_length_ms := 1 }

/-- C1 counterexample: with `modify_cell_barred` enabled and
`cell_barred_value = false`, `modify_mib` writes `true` (not the configured
value) into `cell_barred`; and with `modify_intra_freq_resel` enabled and
`intra_freq_resel_value = true`, the output `intra_freq_reselection` stays
`false` (the rule is not implemented). Hence the claim, as stated, is false
at this concrete input. -/
theorem c1_mutator_selectivity_counterexample : ¬ mutatorSelectivityClaim := by
  intro h
  have h2 := h mibZero cfgCounterexample
  revert h2
  decide

/-- C1 amended: for every MIB and attack configuration, disabled rules leave
their fields unchanged; an enabled `modify_coreset0_idx` or `modify_ss0_idx`
writes exactly the configured value; an enabled `modify_cell_barred` forces
`cell_barred` to the literal `true`, ignoring `cell_barred_value`; and
`modify_intra_freq_resel` has no effect at all: `intra_freq_reselection`
always passes through unchanged. -/
theorem c1_mutator_selectivity_amended (m : SrsranMibNr) (c : AttackConfig) :
    ((modify_mib m c).1.cell_barred =
      (if c.modify_cell_barred then true else m.cell_barred)) ∧
    ((modify_mib m c).1.coreset0_idx =
      (if c.modify_coreset0_idx then c.coreset0_idx_value else m.coreset0_idx)) ∧
    ((modify_mib m c).1.ss0_idx =
      (if c.modify_ss0_idx then c.ss0_idx_value else m.ss0_idx)) ∧
    ((modify_mib m c).1.intra_freq_reselection = m.intra_freq_reselection) := by
  simp only [modify_mib]
  split_ifs <;> simp_all

/-- C3: `modify_mib` preserves, for every input MIB and every attack
configuration, the frame number `sfn`, the beacon offset `ssb_offset`, the
demod-reference position `dmrs_typeA_pos`, and every other field outside the
four rule-targeted ones (`ssb_idx`, `hrf`, `scs_common`, `spare`). -/
theorem c3_timing_field_preservation (m : SrsranMibNr) (c : AttackConfig) :
    ((modify_mib m c).1.sfn = m.sfn) ∧
    ((modify_mib m c).1.ssb_offset = m.ssb_offset) ∧
    ((modify_mib m c).1.dmrs_typeA_pos = m.dmrs_typeA_pos) ∧
    ((modify_mib m c).1.ssb_idx = m.ssb_idx) ∧
    ((modify_mib m c).1.hrf = m.hrf) ∧
    ((modify_mib m c).1.scs_common = m.scs_common) ∧
    ((modify_mib m c).1.spare = m.spare) := by
  simp only [modify_mib]
  split_ifs <;> simp_all

/-- C4: `modify_mib` is idempotent: applying it a second time with the same
attack configuration reproduces both the mutated MIB and the `modified`
flag, because each rule is an unconditional set, never a toggle. -/
theorem c4_mutator_idempotence (m : SrsranMibNr) (c : AttackConfig) :
    modify_mib (modify_mib m c).1 c = modify_mib m c := by
  simp only [modify_mib]
  split_ifs <;> simp_all

/-- Exit reason of the continuous transmission while-loop in
`transmit_spoofed_ssb` (main.cpp lines 330-390): the guard saw the
cancellation flag cleared, the guard saw the burst limit reached, the
consecutive-error threshold fired (`FATAL` message, `break`), or the fuel of
the embedding ran out before the loop exited. -/
inductive TxExit where
  | cancelled
  | maxReached
  | fatal
  | outOfFuel
deriving DecidableEq

/-- State of the continuous transmission loop: the `tx_count` and
`consecutive_errors` locals of main.cpp lines 317-318, plus `calls`, the
number of `rf.transmit` invocations made so far. -/
structure TxState where
  txCount : Nat
  consecErrors : Nat
  calls : Nat
deriving DecidableEq

/-- Embeds the continuous transmission while-loop of `transmit_spoofed_ssb`
(main.cpp lines 330-390). `run i` is the value of the `running` flag
observed by the guard of iteration `i`; `tx i` is the return value of the
`rf.transmit` call of iteration `i`. The guard
`running && (max_bursts == 0 || tx_count < max_bursts)` is checked first;
a negative transmit result increments `consecutive_errors` and breaks out as
fatal once it reaches 10; a non-negative result resets `consecutive_errors`
to 0 and increments `tx_count`. -/
def txLoop (maxBursts : Nat) (run : Nat → Bool) (tx : Nat → Int) :
    Nat → Nat → TxState → TxState × TxExit
  | 0, _, st => (st, TxExit.outOfFuel)
  | fuel + 1, i, st =>
    if run i = false then (st, TxExit.cancelled)
    else if maxBursts ≠ 0 ∧ maxBursts ≤ st.txCount then (st, TxExit.maxReached)
    else if tx i < 0 then
      let ce := st.consecErrors + 1
      if 10 ≤ ce then ({ st with consecErrors := ce, calls := st.calls + 1 }, TxExit.fatal)
      else txLoop maxBursts run tx fuel (i + 1)
        { st with consecErrors := ce, calls := st.calls + 1 }
    else txLoop maxBursts run tx fuel (i + 1)
      { txCount := st.txCount + 1, consecErrors := 0, calls := st.calls + 1 }

/-- Embeds the value returned by `transmit_spoofed_ssb` after its continuous
branch: the code after the while-loop (main.cpp lines 392-434) prints the
attack statistics, stops the TX stream and falls through to `return true`
for every loop exit reason, the fatal consecutive-error break included. -/
def transmitContinuousReturn (maxBursts : Nat) (run : Nat → Bool) (tx : Nat → Int)
    (fuel : Nat) : Bool :=
  let _ := txLoop maxBursts run tx fuel 0 ⟨0, 0, 0⟩
  true

/-- Embeds the exit code `main` produces from the result of
`transmit_spoofed_ssb` (main.cpp lines 511-524): 1 when it returned false,
otherwise fall through to `return 0`. -/
def mainExitAfterTransmit (txResult : Bool) : Nat :=
  if txResult then 0 else 1

/-- Helper for C5: from any state with `txCount + r = maxBursts` and all
transmissions succeeding, the loop performs `r` more successful iterations
and exits `maxReached` with `consecutive_errors` zeroed (for `r = 0` the
counter `c` is returned untouched, hence stated for a zero counter). -/
theorem txLoop_maxReached (maxBursts : Nat) (run : Nat → Bool) (tx : Nat → Int)
    (hrun : ∀ i, run i = true) (htx : ∀ i, 0 ≤ tx i) (hpos : 0 < maxBursts) :
    ∀ r i t cl fuel, t + r = maxBursts → r + 1 ≤ fuel →
      txLoop maxBursts run tx fuel i ⟨t, 0, cl⟩ =
        (⟨maxBursts, 0, cl + r⟩, TxExit.maxReached) := by
  intro r
  induction r with
  | zero =>
    intro i t cl fuel ht hfuel
    obtain ⟨fuel, rfl⟩ : ∃ f, fuel = f + 1 := ⟨fuel - 1, by omega⟩
    simp only [txLoop, hrun i]
    have h1 : maxBursts ≠ 0 ∧ maxBursts ≤ t := by omega
    simp [h1]
    omega
  | succ r ih =>
    intro i t cl fuel ht hfuel
    obtain ⟨fuel, rfl⟩ : ∃ f, fuel = f + 1 := ⟨fuel - 1, by omega⟩
    have hguard : ¬(maxBursts ≠ 0 ∧ maxBursts ≤ t) := by omega
    have hneg : ¬(tx i < 0) := by have := htx i; omega
    simp only [txLoop, hrun i, hguard, hneg, if_false, if_true, reduceCtorEq]
    have := ih (i + 1) (t + 1) (cl + 1) fuel (by omega) (by omega)
    rw [this]
    have : cl + 1 + r = cl + (r + 1) := by omega
    rw [this]

/-- Helper for C5: with `max_bursts = 0`, all transmissions succeeding, and
the cancellation flag first observed set at iteration `i + k`, the loop
performs `k` more successful transmissions and exits `cancelled`. -/
theorem txLoop_cancelled (run : Nat → Bool) (tx : Nat → Int)
    (htx : ∀ i, 0 ≤ tx i) :
    ∀ k i t cl fuel, (∀ j, j < k → run (i + j) = true) → run (i + k) = false →
      k + 1 ≤ fuel →
      txLoop 0 run tx fuel i ⟨t, 0, cl⟩ = (⟨t + k, 0, cl + k⟩, TxExit.cancelled) := by
  intro k
  induction k with
  | zero =>
    intro i t cl fuel _ hstop hfuel
    obtain ⟨fuel, rfl⟩ : ∃ f, fuel = f + 1 := ⟨fuel - 1, by omega⟩
    simp only [Nat.add_zero] at hstop
    simp [txLoop, hstop]
  | succ k ih =>
    intro i t cl fuel hrun hstop hfuel
    obtain ⟨fuel, rfl⟩ : ∃ f, fuel = f + 1 := ⟨fuel - 1, by omega⟩
    have h0 : run i = true := by have := hrun 0 (by omega); simpa using this
    have hneg : ¬(tx i < 0) := by have := htx i; omega
    simp only [txLoop, h0]
    have hguard : ¬((0 : Nat) ≠ 0 ∧ (0 : Nat) ≤ t) := by omega
    simp only [if_neg hguard, if_neg hneg, reduceCtorEq, if_false]
    have hrun2 : ∀ j, j < k → run (i + 1 + j) = true := by
      intro j hj
      have := hrun (j + 1) (by omega)
      have he : i + (j + 1) = i + 1 + j := by omega
      rwa [he] at this
    have hstop2 : run (i + 1 + k) = false := by
      have he : i + (k + 1) = i + 1 + k := by omega
      rwa [he] at hstop
    have := ih (i + 1) (t + 1) (cl + 1) fuel hrun2 hstop2 (by omega)
    rw [this]
    have h1 : t + 1 + k = t + (k + 1) := by omega
    have h2 : cl + 1 + k = cl + (k + 1) := by omega
    rw [h1, h2]

/-- C5: continuous-transmission termination. (a) With `max_bursts = N > 0`,
the cancellation flag never set, and every transmit call succeeding, the
loop performs exactly `N` transmissions and exits by the burst-limit guard.
(b) With `max_bursts = 0` and every transmit call succeeding, the loop keeps
transmitting (one burst per iteration) until the first iteration whose guard
observes the cancellation flag set, and exits `cancelled` there. -/
theorem c5_continuous_transmission_termination :
    (∀ (maxBursts fuel : Nat) (run : Nat → Bool) (tx : Nat → Int),
      0 < maxBursts → (∀ i, run i = true) → (∀ i, 0 ≤ tx i) →
      maxBursts + 1 ≤ fuel →
      txLoop maxBursts run tx fuel 0 ⟨0, 0, 0⟩ =
        (⟨maxBursts, 0, maxBursts⟩, TxExit.maxReached)) ∧
    (∀ (k fuel : Nat) (run : Nat → Bool) (tx : Nat → Int),
      (∀ j, j < k → run j = true) → run k = false → (∀ i, 0 ≤ tx i) →
      k + 1 ≤ fuel →
      txLoop 0 run tx fuel 0 ⟨0, 0, 0⟩ = (⟨k, 0, k⟩, TxExit.cancelled)) := by
  constructor
  · intro maxBursts fuel run tx hpos hrun htx hfuel
    have := txLoop_maxReached maxBursts run tx hrun htx hpos maxBursts 0 0 0 fuel
      (by omega) hfuel
    simpa using this
  · intro k fuel run tx hrun hstop htx hfuel
    have := txLoop_cancelled run tx htx k 0 0 0 fuel (by simpa using hrun)
      (by simpa using hstop) hfuel
    simpa using this

/-- Witness for C5 at concrete inputs: `max_bursts = 2`, flag never set and
all transmissions succeed, gives exactly 2 bursts and a `maxReached` exit;
`max_bursts = 0` with the flag first set at iteration 2 gives 2 bursts and a
`cancelled` exit. -/
theorem c5_witness :
    txLoop 2 (fun _ => true) (fun _ => 0) 3 0 ⟨0, 0, 0⟩ =
      (⟨2, 0, 2⟩, TxExit.maxReached) ∧
    txLoop 0 (fun j => decide (j < 2)) (fun _ => 0) 3 0 ⟨0, 0, 0⟩ =
      (⟨2, 0, 2⟩, TxExit.cancelled) :=
  ⟨c5_continuous_transmission_termination.1 2 3 (fun _ => true) (fun _ => 0)
      (by decide) (fun _ => rfl) (fun _ => le_refl 0) (by decide),
   c5_continuous_transmission_termination.2 2 3 (fun j => decide (j < 2)) (fun _ => 0)
      (fun j hj => by simp [hj]) (by decide) (fun _ => le_refl 0) (by decide)⟩

/-- C2: the error-threshold abort and the exit code it leads to, evaluated
at the failing input (continuous mode, `max_bursts = 0`, cancellation never
signalled, transport returning a negative result on every transmit call).
The loop breaks out as fatal after exactly 10 transmit calls with
`consecutive_errors = 10` and no burst counted — but `transmit_spoofed_ssb`
then falls through to `return true`, so `main` exits with code 0, not 1 as
the claim (and the spec's exit-code contract) requires. -/
theorem c2_error_threshold_abort_exit_code :
    txLoop 0 (fun _ => true) (fun _ => -1) 30 0 ⟨0, 0, 0⟩ =
      (⟨0, 10, 10⟩, TxExit.fatal) ∧
    transmitContinuousReturn 0 (fun _ => true) (fun _ => -1) 30 = true ∧
    mainExitAfterTransmit
      (transmitContinuousReturn 0 (fun _ => true) (fun _ => -1) 30) = 0 := by
  refine ⟨by decide, rfl, rfl⟩

/-- State of the scan loop in `scan_for_ssb` (main.cpp lines 105-212):
`pos` is the `search_buffer_pos` write cursor into the 10 ms search window,
`searches` counts the completed full-window codec searches (it indexes the
per-search codec outcome in the loop embedding below). -/
structure ScanState where
  pos : Nat
  searches : Nat
deriving DecidableEq

/-- Embeds line 156 of main.cpp: the number of samples copied from a received
chunk of `n` samples into a window of capacity `cap` whose cursor is at
`pos`: `min((uint32_t)nrecv, search_buffer_size - search_buffer_pos)`. -/
def copiedSamples (cap : Nat) (n : Int) (pos : Nat) : Nat :=
  min n.toNat (cap - pos)

/-- Outcome of one accumulate-and-search step of the scan loop: either the
loop continues with an updated window state, or the codec found an SSB and
`scan_for_ssb` returns. -/
inductive StepOutcome where
  | next (st : ScanState)
  | exitFound (st : ScanState)
deriving DecidableEq

/-- Embeds main.cpp lines 155-195, the body of one scan-loop iteration that
received `n > 0` samples: clamp the copy to the remaining window capacity,
advance the cursor, and when the window is full run the codec search
(outcome `foundRes`); on a miss reset the cursor to 0 for the next window,
on a hit exit the loop. -/
def scanStep (cap : Nat) (n : Int) (foundRes : Bool) (st : ScanState) : StepOutcome :=
  let copied := copiedSamples cap n st.pos
  let pos2 := st.pos + copied
  if cap ≤ pos2 then
    if foundRes then StepOutcome.exitFound ⟨pos2, st.searches + 1⟩
    else StepOutcome.next ⟨0, st.searches + 1⟩
  else StepOutcome.next ⟨pos2, st.searches⟩

/-- Exit reason of the scan loop: cancellation flag observed cleared,
scan-duration deadline exceeded, SSB found, or embedding fuel exhausted. -/
inductive ScanExit where
  | cancelled
  | timeout
  | foundSsb
  | outOfFuel
deriving DecidableEq

/-- Embeds the while-loop of `scan_for_ssb` (main.cpp lines 117-196).
Iteration `i` observes the `running` flag `run i`, the monotonic-clock
elapsed seconds `e i`, and the `rf.receive` result `recv i`; the codec
outcome of the `s`-th full-window search is `found s`. Each iteration first
checks the cancellation flag, then compares the clock reading against the
deadline `d`, then receives a chunk; a non-positive receive result backs off
and retries, otherwise the accumulate-and-search step `scanStep` runs. -/
def scanLoop (cap : Nat) (d : ℚ) (run : Nat → Bool) (e : Nat → ℚ) (recv : Nat → Int)
    (found : Nat → Bool) : Nat → Nat → ScanState → ScanState × ScanExit
  | 0, _, st => (st, ScanExit.outOfFuel)
  | fuel + 1, i, st =>
    if run i = false then (st, ScanExit.cancelled)
    else if d < e i then (st, ScanExit.timeout)
    else if recv i ≤ 0 then scanLoop cap d run e recv found fuel (i + 1) st
    else
      match scanStep cap (recv i) (found st.searches) st with
      | StepOutcome.exitFound st2 => (st2, ScanExit.foundSsb)
      | StepOutcome.next st2 => scanLoop cap d run e recv found fuel (i + 1) st2

/-- Embeds the boolean `scan_for_ssb` returns for each loop exit: `true`
only in the found branch (line 190), `false` after the timeout break or a
cancellation exit (line 211). -/
def scanReturn (x : ScanExit) : Bool :=
  match x with
  | ScanExit.foundSsb => true
  | _ => false

/-- Helper for C6: if the codec never reports a find, the cancellation flag
is never observed set, and the clock reading of iteration `i + k` exceeds
the deadline, then the loop started at iteration `i` with enough fuel exits
with `timeout`. -/
theorem scanLoop_timeout (cap : Nat) (d : ℚ) (run : Nat → Bool) (e : Nat → ℚ)
    (recv : Nat → Int) (found : Nat → Bool)
    (hfound : ∀ s, found s = false) (hrun : ∀ i, run i = true) :
    ∀ k i st fuel, d < e (i + k) → k + 1 ≤ fuel →
      (scanLoop cap d run e recv found fuel i st).2 = ScanExit.timeout := by
  intro k
  induction k with
  | zero =>
    intro i st fuel hclock hfuel
    obtain ⟨fuel, rfl⟩ : ∃ f, fuel = f + 1 := ⟨fuel - 1, by omega⟩
    simp only [Nat.add_zero] at hclock
    simp [scanLoop, hrun i, hclock]
  | succ k ih =>
    intro i st fuel hclock hfuel
    obtain ⟨fuel, rfl⟩ : ∃ f, fuel = f + 1 := ⟨fuel - 1, by omega⟩
    have he : i + (k + 1) = (i + 1) + k := by omega
    rw [he] at hclock
    by_cases hc : d < e i
    · simp [scanLoop, hrun i, hc]
    · simp only [scanLoop, hrun i, if_false, reduceCtorEq, if_neg hc]
      by_cases hr : recv i ≤ 0
      · simp only [if_pos hr]
        exact ih (i + 1) st fuel hclock (by omega)
      · simp only [if_neg hr, hfound st.searches]
        have hstep : scanStep cap (recv i) false st =
            StepOutcome.next (if cap ≤ st.pos + copiedSamples cap (recv i) st.pos
              then ⟨0, st.searches + 1⟩
              else ⟨st.pos + copiedSamples cap (recv i) st.pos, st.searches⟩) := by
          unfold scanStep
          split_ifs <;> simp_all
        rw [hstep]
        exact ih (i + 1) _ fuel hclock (by omega)

/-- C6: scanner deadline. For every window capacity, deadline, receive
behaviour and clock trace, if the codec never reports a find and the
cancellation flag stays cleared, then as soon as some iteration `k` (within
the available fuel) reads a clock value beyond the deadline, the scan loop
exits with `timeout` — it does not loop indefinitely — and `scan_for_ssb`
returns `found = false`. -/
theorem c6_scanner_deadline (cap : Nat) (d : ℚ) (run : Nat → Bool) (e : Nat → ℚ)
    (recv : Nat → Int) (found : Nat → Bool) (k fuel : Nat) (st : ScanState)
    (hfound : ∀ s, found s = false) (hrun : ∀ i, run i = true)
    (hclock : d < e k) (hfuel : k + 1 ≤ fuel) :
    (scanLoop cap d run e recv found fuel 0 st).2 = ScanExit.timeout ∧
    scanReturn (scanLoop cap d run e recv found fuel 0 st).2 = false := by
  have h := scanLoop_timeout cap d run e recv found hfound hrun k 0 st fuel
    (by simpa using hclock) hfuel
  exact ⟨h, by rw [h]; rfl⟩

/-- Witness for C6 at concrete inputs: capacity 5, deadline 2 s, clock
reading `i` seconds at iteration `i`, 3 samples received per chunk, codec
never finding: the loop exits with `timeout` by iteration 3 and the scan
reports `found = false`. -/
theorem c6_witness :
    ((2 : ℚ) < (fun i : Nat => (i : ℚ)) 3 ∧ 3 + 1 ≤ 4) ∧
    (scanLoop 5 2 (fun _ => true) (fun i : Nat => (i : ℚ)) (fun _ => 3)
        (fun _ => false) 4 0 ⟨0, 0⟩).2 = ScanExit.timeout ∧
    scanReturn (scanLoop 5 2 (fun _ => true) (fun i : Nat => (i : ℚ)) (fun _ => 3)
        (fun _ => false) 4 0 ⟨0, 0⟩).2 = false := by
  refine ⟨⟨by norm_num, by norm_num⟩, ?_⟩
  exact c6_scanner_deadline 5 2 (fun _ => true) (fun i : Nat => (i : ℚ)) (fun _ => 3)
    (fun _ => false) 3 4 ⟨0, 0⟩ (fun _ => rfl) (fun _ => rfl) (by norm_num) (by norm_num)

/-- C10: the scanner window invariant, per loop iteration. With the cursor
within capacity, (a) the copied count is clamped to
`min(nrecv, capacity - cursor)`, (b) the advanced cursor never exceeds the
window capacity (samples beyond the remaining capacity are discarded, not
carried over), (c) after a full-window search that does not find an SSB the
cursor is reset to 0, and (d) when the window is not yet full the cursor
advances by exactly the copied count. -/
theorem c10_scan_window_invariant (cap : Nat) (n : Int) (f : Bool) (st : ScanState)
    (hpos : st.pos ≤ cap) :
    copiedSamples cap n st.pos = min n.toNat (cap - st.pos) ∧
    st.pos + copiedSamples cap n st.pos ≤ cap ∧
    (cap ≤ st.pos + copiedSamples cap n st.pos → f = false →
      scanStep cap n f st = StepOutcome.next ⟨0, st.searches + 1⟩) ∧
    (st.pos + copiedSamples cap n st.pos < cap →
      scanStep cap n f st =
        StepOutcome.next ⟨st.pos + copiedSamples cap n st.pos, st.searches⟩) := by
  have hmin : copiedSamples cap n st.pos ≤ cap - st.pos := min_le_right _ _
  refine ⟨rfl, by omega, ?_, ?_⟩
  · intro hfull hf
    subst hf
    simp [scanStep, hfull]
  · intro hnot
    simp only [scanStep, if_neg (by omega : ¬ cap ≤ st.pos + copiedSamples cap n st.pos)]

/-- Witness for C10 at a concrete iteration: capacity 10, cursor at 5, a
chunk of 7 samples, codec miss: 5 samples are copied (2 discarded), the
window fills exactly, and the step resets the cursor to 0. -/
theorem c10_witness :
    (ScanState.mk 5 0).pos ≤ 10 ∧
    (copiedSamples 10 7 (ScanState.mk 5 0).pos =
        min (Int.toNat 7) (10 - (ScanState.mk 5 0).pos) ∧
      (ScanState.mk 5 0).pos + copiedSamples 10 7 (ScanState.mk 5 0).pos ≤ 10 ∧
      (10 ≤ (ScanState.mk 5 0).pos + copiedSamples 10 7 (ScanState.mk 5 0).pos →
        false = false →
        scanStep 10 7 false (ScanState.mk 5 0) =
          StepOutcome.next ⟨0, (ScanState.mk 5 0).searches + 1⟩) ∧
      ((ScanState.mk 5 0).pos + copiedSamples 10 7 (ScanState.mk 5 0).pos < 10 →
        scanStep 10 7 false (ScanState.mk 5 0) =
          StepOutcome.next ⟨(ScanState.mk 5 0).pos +
            copiedSamples 10 7 (ScanState.mk 5 0).pos, (ScanState.mk 5 0).searches⟩)) :=
  ⟨by decide, c10_scan_window_invariant 10 7 false ⟨5, 0⟩ (by decide)⟩

/-- Embeds the burst construction of `transmit_spoofed_ssb` (main.cpp lines
253-262): a transmit buffer of `base_samples * burst_length` samples is
filled by copying the base SSB waveform at offset `i * base_samples` for
each repeat index `i < burst_length`, i.e. the buffer is the base waveform
concatenated `burst_length` times. -/
def makeBurst (base : List ℂ) (repeats : Nat) : List ℂ :=
  (List.replicate repeats base).flatten

/-- Helper for C9: the constructed burst has exactly
`base length * repeat count` samples. -/
theorem makeBurst_length (base : List ℂ) (repeats : Nat) :
    (makeBurst base repeats).length = base.length * repeats := by
  simp [makeBurst, List.length_flatten, List.map_replicate, List.sum_replicate,
    smul_eq_mul, Nat.mul_comm]

/-- Helper for C9: each repeat period of the burst is the base waveform,
sample for sample. -/
theorem makeBurst_slice (base : List ℂ) :
    ∀ i repeats, i < repeats →
      ((makeBurst base repeats).drop (i * base.length)).take base.length = base := by
  intro i
  induction i with
  | zero =>
    intro repeats h
    obtain ⟨r, rfl⟩ : ∃ r, repeats = r + 1 := ⟨repeats - 1, by omega⟩
    simp only [makeBurst, List.replicate_succ, List.flatten_cons, Nat.zero_mul,
      List.drop_zero]
    exact List.take_left base _
  | succ i ih =>
    intro repeats h
    obtain ⟨r, rfl⟩ : ∃ r, repeats = r + 1 := ⟨repeats - 1, by omega⟩
    have hlen : (i + 1) * base.length = base.length + i * base.length := by ring
    simp only [makeBurst, List.replicate_succ, List.flatten_cons, hlen]
    rw [← List.drop_drop, List.drop_left]
    exact ih r (by omega)

/-- C9: burst construction. For a base waveform of length `L` and a
configured repeat count `R`, the transmit buffer built by the burst loop has
length exactly `L * R`, and for every repeat index `i < R` the samples at
offsets `[i*L, (i+1)*L)` equal the base waveform sample for sample. -/
theorem c9_burst_construction (base : List ℂ) (repeats i : Nat) (h : i < repeats) :
    (makeBurst base repeats).length = base.length * repeats ∧
    ((makeBurst base repeats).drop (i * base.length)).take base.length = base :=
  ⟨makeBurst_length base repeats, makeBurst_slice base i repeats h⟩

/-- Witness for C9 at a concrete input: base waveform `[1, 2]`, two repeats,
second repeat index: the burst has 4 samples and its second period equals
the base waveform. -/
theorem c9_witness :
    1 < 2 ∧
    ((makeBurst [(1 : ℂ), 2] 2).length = (List.length [(1 : ℂ), 2]) * 2 ∧
      ((makeBurst [(1 : ℂ), 2] 2).drop (1 * List.length [(1 : ℂ), 2])).take
          (List.length [(1 : ℂ), 2]) = [(1 : ℂ), 2]) :=
  ⟨by decide, c9_burst_construction [(1 : ℂ), 2] 2 1 (by decide)⟩

/-- Embeds the power check of main.cpp lines 268-271: the accumulated
`check_power`, the sum over the burst of `std::norm` (the squared magnitude)
of each sample. Float arithmetic is modelled over `ℝ`. -/
noncomputable def checkPower (l : List ℂ) : ℝ :=
  (l.map Complex.normSq).sum

/-- Embeds `current_amplitude = std::sqrt(check_power / nsamples)`
(main.cpp line 275): the RMS amplitude of the burst before rescaling. -/
noncomputable def currentAmplitude (l : List ℂ) : ℝ :=
  Real.sqrt (checkPower l / l.length)

/-- Embeds `scale_factor = target_amplitude / (current_amplitude + 1e-12f)`
with the fixed `target_amplitude = 0.7f` (main.cpp lines 274-276). -/
noncomputable def scaleFactor (l : List ℂ) : ℝ :=
  0.7 / (currentAmplitude l + 1e-12)

/-- Embeds the rescale loop `tx_buffer[i] *= scale_factor` (main.cpp lines
278-280). -/
noncomputable def rescaleBurst (l : List ℂ) : List ℂ :=
  l.map (fun z => z * ((scaleFactor l : ℝ) : ℂ))

/-- The RMS amplitude of a sample buffer: square root of the mean squared
magnitude, the quantity the normalization step targets. -/
noncomputable def rmsAmplitude (l : List ℂ) : ℝ :=
  Real.sqrt ((l.map Complex.normSq).sum / l.length)

/-- Helper for C7: scaling every sample by a real factor scales the RMS
amplitude by its absolute value. -/
theorem rmsAmplitude_map_mul (l : List ℂ) (c : ℝ) :
    rmsAmplitude (l.map (fun z => z * ((c : ℝ) : ℂ))) = |c| * rmsAmplitude l := by
  unfold rmsAmplitude
  rw [List.map_map, List.length_map]
  have hfun : (Complex.normSq ∘ fun z => z * ((c : ℝ) : ℂ)) =
      fun z => c ^ 2 * Complex.normSq z := by
    funext z
    simp only [Function.comp_apply, Complex.normSq_mul, Complex.normSq_ofReal]
    ring
  rw [hfun, List.sum_map_mul_left]
  rw [mul_div_assoc, Real.sqrt_mul (sq_nonneg c), Real.sqrt_sq_eq_abs]

/-- Helper for C7: the accumulated power is nonnegative. -/
theorem checkPower_nonneg (l : List ℂ) : 0 ≤ checkPower l := by
  apply List.sum_nonneg
  intro x hx
  obtain ⟨z, _, rfl⟩ := List.mem_map.mp hx
  exact Complex.normSq_nonneg z

/-- Helper for C7: a buffer holding at least one non-zero sample has
positive accumulated power, hence positive RMS amplitude. -/
theorem currentAmplitude_pos (l : List ℂ) (hz : ∃ z ∈ l, z ≠ 0) :
    0 < currentAmplitude l := by
  obtain ⟨z, hzl, hz0⟩ := hz
  have hpow : 0 < checkPower l := by
    have hle : Complex.normSq z ≤ checkPower l := by
      apply List.single_le_sum
      · intro x hx
        obtain ⟨w, _, rfl⟩ := List.mem_map.mp hx
        exact Complex.normSq_nonneg w
      · exact List.mem_map_of_mem Complex.normSq hzl
    exact lt_of_lt_of_le (Complex.normSq_pos.mpr hz0) hle
  have hlen : 0 < (l.length : ℝ) := by
    have : l ≠ [] := by rintro rfl; simp at hzl
    exact_mod_cast List.length_pos.mpr this
  exact Real.sqrt_pos.mpr (div_pos hpow hlen)

/-- C7: burst normalization. After the rescale step every sample is
multiplied by exactly `0.7 / (currentAmplitude + 1e-12)`; the epsilon term
keeps the denominator strictly positive (no division blow-up, so an
all-zero buffer rescales to an all-zero buffer rather than NaN/Inf); and
for a buffer with at least one non-zero sample the RMS amplitude of the
rescaled burst equals `0.7 * A / (A + 1e-12)` for `A` the input RMS
amplitude, hence lies within `0.7 * 1e-12 / A` of the target 0.7. Float
arithmetic is modelled over `ℝ`. -/
theorem c7_burst_normalization (l : List ℂ) :
    rescaleBurst l = l.map (fun z => z * (((0.7 / (currentAmplitude l + 1e-12) : ℝ)) : ℂ)) ∧
    0 < currentAmplitude l + 1e-12 ∧
    ((∀ z ∈ l, z = 0) → ∀ w ∈ rescaleBurst l, w = 0) ∧
    ((∃ z ∈ l, z ≠ 0) →
      rmsAmplitude (rescaleBurst l) =
        0.7 * currentAmplitude l / (currentAmplitude l + 1e-12) ∧
      |rmsAmplitude (rescaleBurst l) - 0.7| < 1e-12 / currentAmplitude l * 0.7) := by
  have hAnn : 0 ≤ currentAmplitude l := Real.sqrt_nonneg _
  have heps : (0 : ℝ) < 1e-12 := by norm_num
  have hden : 0 < currentAmplitude l + 1e-12 := by linarith
  refine ⟨rfl, hden, ?_, ?_⟩
  · intro h0 w hw
    obtain ⟨z, hzl, rfl⟩ := List.mem_map.mp hw
    rw [h0 z hzl, zero_mul]
  · intro hz
    have hA : 0 < currentAmplitude l := currentAmplitude_pos l hz
    have hrms0 : rmsAmplitude l = currentAmplitude l := rfl
    have hsf : 0 ≤ scaleFactor l := div_nonneg (by norm_num) (le_of_lt hden)
    have heq : rmsAmplitude (rescaleBurst l) =
        0.7 * currentAmplitude l / (currentAmplitude l + 1e-12) := by
      unfold rescaleBurst
      rw [rmsAmplitude_map_mul, hrms0, abs_of_nonneg hsf]
      unfold scaleFactor
      ring
    refine ⟨heq, ?_⟩
    rw [heq]
    set A := currentAmplitude l with hAdef
    have key : 0.7 * A / (A + 1e-12) - 0.7 = -(0.7 * 1e-12 / (A + 1e-12)) := by
      field_simp
      ring
    rw [key, abs_neg, abs_of_nonneg (by positivity)]
    have h2 : (1e-12 : ℝ) / (A + 1e-12) < 1e-12 / A :=
      div_lt_div_of_pos_left heps hA (by linarith)
    calc 0.7 * 1e-12 / (A + 1e-12) = 0.7 * (1e-12 / (A + 1e-12)) := by ring
      _ < 0.7 * (1e-12 / A) := by
          exact mul_lt_mul_of_pos_left h2 (by norm_num)
      _ = 1e-12 / A * 0.7 := by ring

/-- Witness for C7 at the concrete one-sample buffer `[1]`: its RMS
amplitude is 1, the rescaled buffer has RMS amplitude `0.7 / (1 + 1e-12)`,
within `0.7e-12` of the 0.7 target. -/
theorem c7_witness :
    currentAmplitude [(1 : ℂ)] = 1 ∧
    (∃ z ∈ [(1 : ℂ)], z ≠ 0) ∧
    (rmsAmplitude (rescaleBurst [(1 : ℂ)]) =
        0.7 * currentAmplitude [(1 : ℂ)] / (currentAmplitude [(1 : ℂ)] + 1e-12) ∧
      |rmsAmplitude (rescaleBurst [(1 : ℂ)]) - 0.7| <
        1e-12 / currentAmplitude [(1 : ℂ)] * 0.7) := by
  have hamp : currentAmplitude [(1 : ℂ)] = 1 := by
    unfold currentAmplitude checkPower
    simp [Complex.normSq_one]
  have hex : ∃ z ∈ [(1 : ℂ)], z ≠ 0 := ⟨1, by simp, by norm_num⟩
  exact ⟨hamp, hex, (c7_burst_normalization [(1 : ℂ)]).2.2.2 hex⟩

/-- C8: `validate` rejects a configuration exactly when at least one of the
range checks fails: non-positive sample rate, non-positive RX or TX
frequency, SSB pattern outside A-E, subcarrier spacing outside {15, 30} kHz,
target PCI above 1007, or either override index above 15. -/
theorem c8_validate_characterization (c : Config) :
    validate c = false ↔
      (c.rf.srate_hz ≤ 0 ∨ (c.rf.rx_freq_hz ≤ 0 ∨ c.rf.tx_freq_hz ≤ 0) ∨
       (c.ssb.pattern ≠ "A" ∧ c.ssb.pattern ≠ "B" ∧ c.ssb.pattern ≠ "C" ∧
        c.ssb.pattern ≠ "D" ∧ c.ssb.pattern ≠ "E") ∨
       (c.ssb.scs_khz ≠ 15 ∧ c.ssb.scs_khz ≠ 30) ∨
       c.attack.target_pci > 1007 ∨ c.attack.coreset0_idx_value > 15 ∨
       c.attack.ss0_idx_value > 15) := by
  simp only [validate]
  split_ifs <;> simp_all

end RtComponents
